import Mathlib

/-!
# Verification of the Toyota Danish PDF extraction pipeline

A shallow embedding, in Lean 4, of the extraction-to-identity pipeline of
`railway-pdfplumber-poc/extract_with_template.py`: the Python string
operations it uses, the unique-variant-id generation system
(`generate_unique_variant_id` and its helpers), the two-pass duplicate
removal (`_remove_duplicates`), the pricing-table classifier
(`_is_pricing_table`), the table-column price extraction
(`_find_column_index`, `_extract_danish_price`, `_parse_danish_price`),
and the document-level failure shape of `extract_from_pdf`.

Python strings are modelled as Lean `String`s (lists of characters);
Python regular-expression searches are modelled by direct scanning
functions that realize the leftmost-match semantics of the concrete
patterns appearing in the source.  Configuration that the source reads
from an external JSON template (pricing keywords, price patterns with
their plausible ranges) is modelled as explicit parameters.
-/

namespace Leasingborsen

/-! ## Python string primitives -/

/-- Lower-casing of a single character as CPython `str.lower` does it for
the ASCII and Latin-1 letter ranges (which covers the Danish alphabet);
other characters are left unchanged. -/
def pyLowerChar (c : Char) : Char :=
  if 'A' ≤ c ∧ c ≤ 'Z' then Char.ofNat (c.toNat + 32)
  else if 0xC0 ≤ c.toNat ∧ c.toNat ≤ 0xDE ∧ c.toNat ≠ 0xD7 then Char.ofNat (c.toNat + 32)
  else c

/-- Python `str.lower`. -/
def pyLower (s : String) : String := ⟨s.data.map pyLowerChar⟩

/-- Does the character list `l` contain `sub` as a contiguous infix?
Models the Python substring test `sub in l` (for nonempty `sub`;
the empty pattern is contained in everything, as in Python). -/
def containsSubL (sub : List Char) : List Char → Bool
  | [] => sub.isEmpty
  | c :: cs => sub.isPrefixOf (c :: cs) || containsSubL sub cs

/-- Python `sub in s` substring containment. -/
def pyContains (s sub : String) : Bool := containsSubL sub.data s.data

/-- Python `s.endswith(suffix)`. -/
def pyEndsWith (s suffix : String) : Bool := suffix.data.isSuffixOf s.data

/-- Python `s.startswith(pre)`. -/
def pyStartsWith (s pre : String) : Bool := pre.data.isPrefixOf s.data

/-- The loop of Python `str.replace`, with structural fuel (one unit per
consumed character, so `fuel = l.length` never runs out): replace each
non-overlapping occurrence of `old` by `new`, scanning left to right. -/
def pyReplaceAux (old new : List Char) : Nat → List Char → List Char
  | 0, l => l
  | _ + 1, [] => []
  | fuel + 1, c :: cs =>
    if old ≠ [] ∧ old.isPrefixOf (c :: cs) then
      new ++ pyReplaceAux old new fuel ((c :: cs).drop old.length)
    else
      c :: pyReplaceAux old new fuel cs

/-- `str.replace` on character lists.  The source only ever calls
`replace` with a nonempty `old`; for `old = []` this model returns the
input unchanged. -/
def pyReplaceL (old new : List Char) (l : List Char) : List Char :=
  pyReplaceAux old new l.length l

/-- Python `s.replace(old, new)`. -/
def pyReplace (s old new : String) : String := ⟨pyReplaceL old.data new.data s.data⟩

/-- The six ASCII whitespace characters recognized by Python `str.strip`
and by the regex class `\s` on ASCII text. -/
def isPySpace (c : Char) : Bool :=
  c = ' ' || c = '\t' || c = '\n' || c = '\r' || c = '\x0b' || c = '\x0c'

/-- Strip the characters satisfying `p` from both ends of a list. -/
def stripEndsL (p : Char → Bool) (l : List Char) : List Char :=
  ((l.dropWhile p).reverse.dropWhile p).reverse

/-- Python `s.strip()` (whitespace). -/
def pyStrip (s : String) : String := ⟨stripEndsL isPySpace s.data⟩

/-- Python `s.strip('_')`. -/
def pyStripUnderscore (s : String) : String := ⟨stripEndsL (· = '_') s.data⟩

/-- Numeric value of a list of decimal digits, most significant first;
models Python `int` applied to a digit string (leading zeros allowed). -/
def natOfDigits (l : List Char) : Nat :=
  l.foldl (fun acc c => acc * 10 + (c.toNat - '0'.toNat)) 0

/-- Case-insensitive test that `pat` (given in lower case) is a prefix of
`l`; models a regex literal under `re.IGNORECASE`. -/
def startsWithCI (pat : List Char) (l : List Char) : Bool :=
  pat.isPrefixOf (l.map pyLowerChar)

/-- Truthiness of a Python `Optional[str]`: `None` and the empty string
are falsy. -/
def optStrTruthy : Option String → Bool
  | none => false
  | some s => !(s.data.isEmpty)

/-- Truthiness of a Python `Optional[int]`: `None` and `0` are falsy. -/
def optNatTruthy : Option Nat → Bool
  | none => false
  | some n => n != 0

/-! ## Locale field parsers (`extract_with_template.py`, lines 1719-1826)

The horsepower pattern is `(\d+)\s*(?:hk|hp)` under `re.IGNORECASE` and the
battery pattern is `(\d+[,.]?\d*)\s*kwh`.  `re.search` finds the leftmost
match.  For these patterns a start position inside a digit run can only
match if the full run from its start matches (backtracking inside the run
always meets a digit where the literal tail is required), so the scan
below — try the maximal digit run at each successive start position — is
exactly the leftmost-match semantics. -/

/-- The scan behind `extract_power_from_specification`: leftmost digit run
followed by optional whitespace and a case-insensitive `hk` or `hp`. -/
def powerScan : List Char → Option Nat
  | [] => none
  | c :: cs =>
    if c.isDigit then
      let run := (c :: cs).takeWhile Char.isDigit
      let rest := ((c :: cs).dropWhile Char.isDigit).dropWhile isPySpace
      if startsWithCI ['h', 'k'] rest || startsWithCI ['h', 'p'] rest then
        some (natOfDigits run)
      else
        powerScan cs
    else
      powerScan cs

/-- `extract_power_from_specification(engine_spec)`: `None` for the empty
string, otherwise the first horsepower figure, as a number. -/
def extract_power_from_specification (engine_spec : String) : Option Nat :=
  if engine_spec.data.isEmpty then none else powerScan engine_spec.data

/-- The decimal capture of the battery pattern: integer digits and the
digits after the decimal separator (`,` and `.` both accepted; the
separator itself is normalized away, as by `.replace(',', '.')`). -/
structure DecimalCapture where
  intDigits : List Char
  fracDigits : List Char
  deriving DecidableEq, Repr

/-- The scan behind `extract_battery_capacity`: leftmost digit run,
optionally a single `,` or `.` and a further digit run, then optional
whitespace and a case-insensitive `kwh`. -/
def batteryScan : List Char → Option DecimalCapture
  | [] => none
  | c :: cs =>
    if c.isDigit then
      let ip := (c :: cs).takeWhile Char.isDigit
      let r1 := (c :: cs).dropWhile Char.isDigit
      match r1 with
      | sep :: r2 =>
        if sep = ',' || sep = '.' then
          let fp := r2.takeWhile Char.isDigit
          let r3 := (r2.dropWhile Char.isDigit).dropWhile isPySpace
          if startsWithCI ['k', 'w', 'h'] r3 then some ⟨ip, fp⟩ else batteryScan cs
        else
          if startsWithCI ['k', 'w', 'h'] (r1.dropWhile isPySpace) then some ⟨ip, []⟩
          else batteryScan cs
      | [] => none
    else
      batteryScan cs

/-- `extract_battery_capacity(engine_spec)`: `None` for the empty string,
otherwise the first battery-capacity figure as a decimal capture.  The
source converts the capture to a Python `float`; this embedding keeps the
digits and interprets them through `pyFloatRepr` / `decimalIsZero`. -/
def extract_battery_capacity (engine_spec : String) : Option DecimalCapture :=
  if engine_spec.data.isEmpty then none else batteryScan engine_spec.data

/-- Truthiness of the parsed battery `float`: `0.0` is falsy, so the value
is truthy exactly when some digit is nonzero. -/
def decimalTruthy (d : DecimalCapture) : Bool :=
  (d.intDigits ++ d.fracDigits).any (· ≠ '0')

/-- Drop leading zeros of an integer-digit list, keeping at least one
digit. -/
def stripLeadingZeros (l : List Char) : List Char :=
  match l.dropWhile (· = '0') with
  | [] => ['0']
  | r => r

/-- Drop trailing zeros of a fractional-digit list. -/
def stripTrailingZeros (l : List Char) : List Char :=
  (l.reverse.dropWhile (· = '0')).reverse

/-- `str(float(capture))` in CPython for a short decimal capture (at most
a dozen significant digits, as all battery figures are): `repr` of a float
is the shortest decimal string rounding to it, which for such captures is
the capture itself with redundant zeros removed and with `.0` when the
fractional part is empty — e.g. `"57,7" ↦ "57.7"`, `"73" ↦ "73.0"`. -/
def pyFloatRepr (d : DecimalCapture) : String :=
  let ip := stripLeadingZeros d.intDigits
  let fp := stripTrailingZeros d.fracDigits
  if fp.isEmpty then ⟨ip ++ ['.', '0']⟩ else ⟨ip ++ '.' :: fp⟩

/-! ## Powertrain and drivetrain helpers (lines 1730-1826) -/

/-- `categorize_powertrain(engine_spec)`. -/
def categorize_powertrain (engine_spec : String) : String :=
  if engine_spec.data.isEmpty then "unknown"
  else
    let el := pyLower engine_spec
    if pyContains el "kwh" || pyContains el "elbil" then "electric"
    else if pyContains el "hybrid" then "hybrid"
    else if pyContains el "benzin" then "gasoline"
    else "unknown"

/-- `detect_gasoline_transmission(engine_spec)`. -/
def detect_gasoline_transmission (engine_spec : String) : Option String :=
  if engine_spec.data.isEmpty then none
  else
    let el := pyLower engine_spec
    if pyContains el "automatgear" then some "auto"
    else if pyContains el "benzin" && !pyContains el "automatgear" then some "manual"
    else none

/-- `normalize_drivetrain(engine_spec, drivetrain_field)`. -/
def normalize_drivetrain (engine_spec : String) (drivetrain_field : Option String) : String :=
  if optStrTruthy drivetrain_field then pyLower (drivetrain_field.getD "")
  else if engine_spec.data.isEmpty then "fwd"
  else
    let el := pyLower engine_spec
    if pyContains el "awd" then "awd"
    else if pyContains el "automatgear" then "auto"
    else if pyContains el "benzin" && !pyContains el "automatgear" then "manual"
    else if pyContains el "hybrid" then "hybrid"
    else if pyContains el "elbil" || pyContains el "kwh" then "electric"
    else "fwd"

/-! ## Unique variant id generation (lines 1609-1717) -/

/-- The tail left over after one match of `_\d+\.?\d*` starting right
after the underscore: drop the digit run, an optional dot and the digit
run after the dot. -/
def subNumTail (cs : List Char) : List Char :=
  let r := cs.dropWhile Char.isDigit
  match r.head? with
  | some '.' => r.tail.dropWhile Char.isDigit
  | _ => r

theorem subNumTail_length_le (cs : List Char) : (subNumTail cs).length ≤ cs.length := by
  have h1 : (cs.dropWhile Char.isDigit).length ≤ cs.length :=
    (List.dropWhile_sublist Char.isDigit).length_le
  unfold subNumTail
  dsimp only
  split
  · have h3 : ((cs.dropWhile Char.isDigit).tail.dropWhile Char.isDigit).length ≤
        (cs.dropWhile Char.isDigit).tail.length :=
      (List.dropWhile_sublist Char.isDigit).length_le
    have h4 := (cs.dropWhile Char.isDigit).length_tail
    omega
  · exact h1

/-- `re.sub(r'_\d+\.?\d*', '', s)`, with structural fuel (one unit per
consumed character): delete every underscore followed by a digit run, an
optional dot and a further digit run.  Each step consumes at least one
character (`subNumTail cs` is no longer than `cs`, see
`subNumTail_length_le`), so `fuel = l.length` never runs out. -/
def subNumGroupsAux : Nat → List Char → List Char
  | 0, l => l
  | _ + 1, [] => []
  | fuel + 1, c :: cs =>
    if c = '_' && !(cs.takeWhile Char.isDigit).isEmpty then
      subNumGroupsAux fuel (subNumTail cs)
    else
      c :: subNumGroupsAux fuel cs

def subNumGroups (l : List Char) : List Char := subNumGroupsAux l.length l

/-- `re.sub(r'_+', '_', s)`, with structural fuel: collapse each run of
underscores to one. -/
def collapseUnderscoresAux : Nat → List Char → List Char
  | 0, l => l
  | _ + 1, [] => []
  | fuel + 1, c :: cs =>
    if c = '_' then '_' :: collapseUnderscoresAux fuel (cs.dropWhile (· = '_'))
    else c :: collapseUnderscoresAux fuel cs

def collapseUnderscores (l : List Char) : List Char := collapseUnderscoresAux l.length l

/-- `model.lower().replace(' ', '').replace('-', '')`. -/
def modelClean (model : String) : String :=
  pyReplace (pyReplace (pyLower model) " " "") "-" ""

/-- `variant.lower().replace(' ', '_')`, then the special-case collapse to
`executive_panorama` (lines 1638-1642). -/
def variantClean (variant : String) : String :=
  let vc := pyReplace (pyLower variant) " " "_"
  if pyContains vc "executive_panorama" then "executive_panorama" else vc

/-- The horsepower markers of the OPTION A check (line 1648). -/
def hpMarkers : List String := ["116", "140", "343"]

/-- The OPTION A early-return test (lines 1646-1648): the cleaned variant
name already carries differentiating information. -/
def earlyCond (vc : String) : Bool :=
  pyEndsWith vc "_auto" || pyEndsWith vc "_manual" ||
  pyContains vc "kwh" || pyContains vc "_awd" ||
  hpMarkers.any (fun hp => pyContains vc ("_" ++ hp ++ "hp"))

/-- The cleaned id variant of the early-return path (lines 1651-1653):
strip `kwh`, `_awd` and `hp`, delete numeric groups, collapse and trim
underscores. -/
def idVariant (vc : String) : String :=
  let s1 := pyReplace (pyReplace (pyReplace vc "kwh" "") "_awd" "") "hp" ""
  pyStripUnderscore ⟨collapseUnderscores (subNumGroups s1.data)⟩

/-- The power suffix `_{power_hp}hp`, appended only when `power_hp` is
truthy. -/
def powerSuffix (p : Option Nat) : String :=
  if optNatTruthy p then "_" ++ toString (p.getD 0) ++ "hp" else ""

/-- The battery suffix `_{battery_clean}kwh` of the electric branch
(lines 1679-1681), appended only when `battery_kwh` is truthy;
`battery_clean` is `str(battery_kwh).replace('.', '_')`. -/
def batterySuffix (b : Option DecimalCapture) : String :=
  match b with
  | some d => if decimalTruthy d then "_" ++ pyReplace (pyFloatRepr d) "." "_" ++ "kwh" else ""
  | none => ""

/-- `'awd' in drivetrain_code.lower()`: the all-wheel-drive test used by
the electric, hybrid and fallback branches. -/
def awdCode (engine_spec : String) (drivetrain : Option String) : Bool :=
  pyContains (pyLower (normalize_drivetrain engine_spec drivetrain)) "awd"

/-- The suffixes the electric branch appends to the base id (lines
1677-1691): battery capacity when truthy, the power suffix a second time,
`_awd` when all-wheel drive, and `_electric` always. -/
def electricTail (engine_spec : String) (drivetrain : Option String) : String :=
  batterySuffix (extract_battery_capacity engine_spec)
    ++ powerSuffix (extract_power_from_specification engine_spec)
    ++ (if awdCode engine_spec drivetrain then "_awd" else "")
    ++ "_electric"

/-- The suffix the gasoline branch appends (lines 1693-1700): the detected
transmission when truthy, `_manual` otherwise. -/
def gasolineTail (engine_spec : String) : String :=
  match detect_gasoline_transmission engine_spec with
  | some t => if !t.data.isEmpty then "_" ++ t else "_manual"
  | none => "_manual"

/-- The suffix the hybrid branch appends (lines 1702-1708). -/
def hybridTail (engine_spec : String) (drivetrain : Option String) : String :=
  if awdCode engine_spec drivetrain then "_awd"
  else if pyContains (pyLower engine_spec) "automatgear" then "_auto"
  else "_hybrid"

/-- The suffix of the fallback branch (lines 1710-1715). -/
def fallbackTail (engine_spec : String) (drivetrain : Option String) : String :=
  if awdCode engine_spec drivetrain then "_awd"
  else if normalize_drivetrain engine_spec drivetrain = "auto"
       || normalize_drivetrain engine_spec drivetrain = "manual" then
    "_" ++ normalize_drivetrain engine_spec drivetrain
  else ""

/-- The suffix appended after the power suffix on the normal (non-early)
path, dispatched on the powertrain category (lines 1675-1715). -/
def normalTail (engine_spec : String) (drivetrain : Option String) : String :=
  if categorize_powertrain engine_spec = "electric" then electricTail engine_spec drivetrain
  else if categorize_powertrain engine_spec = "gasoline" then gasolineTail engine_spec
  else if categorize_powertrain engine_spec = "hybrid" then hybridTail engine_spec drivetrain
  else fallbackTail engine_spec drivetrain

/-- The OPTION A early-return result (lines 1649-1666): the cleaned id
variant, the power suffix unless the raw variant name already shows one of
the horsepower markers, and `_awd` unless already in the variant name. -/
def earlyResult (model variant engine_spec : String) (drivetrain : Option String) : String :=
  modelClean model ++ "_" ++ idVariant (variantClean variant)
    ++ (if optNatTruthy (extract_power_from_specification engine_spec)
           && !hpMarkers.any (fun hp => pyContains variant hp) then
          "_" ++ toString ((extract_power_from_specification engine_spec).getD 0) ++ "hp"
        else "")
    ++ (if awdCode engine_spec drivetrain && !pyContains (variantClean variant) "_awd" then
          "_awd" else "")

/-- `generate_unique_variant_id(model, variant, engine_specification,
drivetrain)` (lines 1609-1717), the unique-id generation system: the
sequence of `base_id +=` appends of the source is rendered as one
concatenation of the pieces, in the source's order.  The `print` debug
statements are side effects without influence on the returned value and
are not modelled. -/
def generate_unique_variant_id (model variant engine_specification : String)
    (drivetrain : Option String) : String :=
  if earlyCond (variantClean variant) then
    earlyResult model variant engine_specification drivetrain
  else
    modelClean model ++ "_" ++ variantClean variant
      ++ powerSuffix (extract_power_from_specification engine_specification)
      ++ normalTail engine_specification drivetrain

/-! ## Two-pass duplicate removal (`_remove_duplicates`, lines 1250-1308)

An extracted item is a Python dict; duplicate removal reads only the four
match fields and the generated `id`, each possibly missing, so an item is
modelled by exactly those five optional fields. -/

structure DedupItem where
  model : Option String
  variant : Option String
  engine_specification : Option String
  monthly_price : Option Int
  id : Option String
  deriving DecidableEq, Repr

/-- One component of the pass-one key: a present string field is
lower-cased and stripped, a present integer is rendered by `str`, and a
missing field contributes the empty string.  (The `source_page` branch of
the source is unreachable: `source_page` is not among the match
fields.) -/
def keyOfStrField : Option String → String
  | some s => pyStrip (pyLower s)
  | none => ""

/-- The pass-one duplicate-detection key over
`["model", "variant", "engine_specification", "monthly_price"]`. -/
def dedupKey (i : DedupItem) : List String :=
  [keyOfStrField i.model, keyOfStrField i.variant,
   keyOfStrField i.engine_specification,
   match i.monthly_price with
   | some n => toString n
   | none => ""]

/-- `item.get('id', '')`. -/
def itemId (i : DedupItem) : String := i.id.getD ""

/-- Pass one (lines 1259-1285): keep the first item of each
exact-tuple key. -/
def pass1Aux (seen : List (List String)) : List DedupItem → List DedupItem
  | [] => []
  | i :: rest =>
    let k := dedupKey i
    if seen.contains k then pass1Aux seen rest
    else i :: pass1Aux (k :: seen) rest

/-- Pass two (lines 1287-1304): keep the first item of each nonempty
generated id; items without an id are kept unconditionally. -/
def pass2Aux (seenIds : List String) : List DedupItem → List DedupItem
  | [] => []
  | i :: rest =>
    let uid := itemId i
    if !uid.isEmpty && !seenIds.contains uid then i :: pass2Aux (uid :: seenIds) rest
    else if seenIds.contains uid then pass2Aux seenIds rest
    else i :: pass2Aux seenIds rest

/-- `_remove_duplicates(items)`: pass one, then pass two. -/
def remove_duplicates (items : List DedupItem) : List DedupItem :=
  pass2Aux [] (pass1Aux [] items)

/-! ## Pricing-table classification (`_is_pricing_table`, lines 231-265)

A table cell as returned by the page source is an optional string; the
pricing keywords and the price regexes come from the external template
configuration, so they are parameters here — a configured price regex is
modelled by the predicate it induces on cell text. -/

/-- `str(cell or "")`. -/
def cellStr : Option String → String
  | some s => s
  | none => ""

/-- `" ".join(cells)`. -/
def joinSpace (l : List String) : String := String.intercalate " " l

/-- `_contains_price_pattern(text)` over the configured price patterns,
each given as the match predicate of its regex. -/
def contains_price_pattern (patterns : List (String → Bool)) (text : String) : Bool :=
  patterns.any (fun p => p text)

/-- `_is_pricing_table(table)`: at least two rows, a nonempty header row
containing a configured pricing keyword, and a price pattern in one of
the first two data rows. -/
def is_pricing_table (header_keywords : List String) (patterns : List (String → Bool))
    (table : List (List (Option String))) : Bool :=
  if table.length < 2 then false
  else
    match table with
    | [] => false
    | headers :: rows =>
      if headers.isEmpty then false
      else
        let header_text := pyLower (joinSpace (headers.map cellStr))
        let keyword_found := header_keywords.any (fun kw => pyContains header_text (pyLower kw))
        let price_found := (rows.take 2).any
          (fun row => row.any (fun cell => contains_price_pattern patterns (cellStr cell)))
        keyword_found && price_found

/-! ## Table column location and Danish price extraction
(`_find_column_index` lines 746-755, `_extract_danish_price` lines
799-817, `_parse_danish_price` lines 819-848) -/

/-- The loop of `_find_column_index`: the first header cell that is
truthy and contains one of the keywords (case-insensitively) wins. -/
def findColAux (keywords : List String) : List (Option String) → Nat → Option Nat
  | [], _ => none
  | h :: t, i =>
    match h with
    | none => findColAux keywords t (i + 1)
    | some s =>
      if s.data.isEmpty then findColAux keywords t (i + 1)
      else if keywords.any (fun kw => pyContains (pyLower s) (pyLower kw)) then some i
      else findColAux keywords t (i + 1)

/-- `_find_column_index(headers, keywords)`: index of the first matching
header cell, `-1` when none matches. -/
def find_column_index (headers : List (Option String)) (keywords : List String) : Int :=
  match findColAux keywords headers 0 with
  | some i => Int.ofNat i
  | none => -1

/-- Python `int(s)` on a stripped piece of text: optional sign followed by
at least one digit; anything else raises `ValueError`, modelled as
`none`. -/
def pyIntOfString (s : String) : Option Int :=
  match stripEndsL isPySpace s.data with
  | [] => none
  | '-' :: ds => if !ds.isEmpty && ds.all Char.isDigit then some (-(natOfDigits ds : Int)) else none
  | '+' :: ds => if !ds.isEmpty && ds.all Char.isDigit then some (natOfDigits ds : Int) else none
  | ds => if ds.all Char.isDigit then some (natOfDigits ds : Int) else none

/-- One configured price pattern: the matches its regex finds in a text
(`re.finditer`, each match reduced to its list of capture groups), its
`format` tag and its plausible range. -/
structure PricePattern where
  findAll : String → List (List String)
  fmt : Option String
  min_value : Option Int
  max_value : Option Int

/-- The price a single regex match yields (lines 828-836): groups 1 and 2
combined for `danish_thousands`, group 1 alone otherwise; a missing group
(`IndexError`) or an unparsable digit string (`ValueError`) yields
nothing and the loop continues. -/
def priceOfMatch (pc : PricePattern) (groups : List String) : Option Int :=
  if pc.fmt = some "danish_thousands" then
    match groups.get? 0, groups.get? 1 with
    | some g1, some g2 =>
      match pyIntOfString g1, pyIntOfString g2 with
      | some a, some b => some (a * 1000 + b)
      | _, _ => none
    | _, _ => none
  else
    match groups.get? 0 with
    | some g1 => pyIntOfString g1
    | none => none

/-- The configured plausible range (lines 839-840), with the source's
defaults. -/
def priceMin (pc : PricePattern) : Int := pc.min_value.getD 0

def priceMax (pc : PricePattern) : Int := pc.max_value.getD 999999

/-- The inner loop of `_parse_danish_price`: the first match whose price
parses and lies in the configured range wins. -/
def firstPriceInRange (pc : PricePattern) : List (List String) → Option Int
  | [] => none
  | g :: gs =>
    match priceOfMatch pc g with
    | some price =>
      if priceMin pc ≤ price ∧ price ≤ priceMax pc then some price
      else firstPriceInRange pc gs
    | none => firstPriceInRange pc gs

/-- `_parse_danish_price(text)` over the configured patterns. -/
def parse_danish_price (cfg : List PricePattern) (text : String) : Option Int :=
  match cfg with
  | [] => none
  | pc :: rest =>
    match firstPriceInRange pc (pc.findAll text) with
    | some p => some p
    | none => parse_danish_price rest text

/-- The fallback loop of `_extract_danish_price` (lines 810-815): scan
every truthy cell of the row and return the first truthy parsed price. -/
def scanPriceRow (cfg : List PricePattern) : List (Option String) → Option Int
  | [] => none
  | c :: cs =>
    match c with
    | some s =>
      if !s.data.isEmpty then
        match parse_danish_price cfg s with
        | some p => if p ≠ 0 then some p else scanPriceRow cfg cs
        | none => scanPriceRow cfg cs
      else scanPriceRow cfg cs
    | none => scanPriceRow cfg cs

/-- `_extract_danish_price(row, col_idx)`: `None` for a negative column
index; otherwise the designated column's cell is tried first and, when it
yields no truthy price, every cell of the row is scanned. -/
def extract_danish_price (cfg : List PricePattern) (row : List (Option String))
    (col_idx : Int) : Option Int :=
  if col_idx < 0 then none
  else
    let colPrice : Option Int :=
      if col_idx < (row.length : Int) then
        match row.get? col_idx.toNat with
        | some (some s) =>
          if !s.data.isEmpty then
            match parse_danish_price cfg s with
            | some p => if p ≠ 0 then some p else none
            | none => none
          else none
        | _ => none
      else none
    match colPrice with
    | some p => some p
    | none => scanPriceRow cfg row

/-! ## Document-level failure shape (`extract_from_pdf`, lines 36-111)

The whole `try` body — opening the page source and running the per-page
pipeline — is abstracted as a computation that either produces the
validated items together with the accumulated validation error strings, or
raises an exception carrying a message and a formatted traceback. -/

structure ExtractionResult (α : Type) where
  success : Bool
  items : List α
  errors : List String
  deriving Repr

/-- `ToyotaDanishExtractor.extract_from_pdf`: a successful run returns the
validated items with `success=True`; any exception is caught and turned
into a `success=False` result with no items and the failure reason
recorded (lines 97-111). -/
def extract_from_pdf (α : Type) (run : Except (String × String) (List α × List String)) :
    ExtractionResult α :=
  match run with
  | .ok (validated, errs) => ⟨true, validated, errs⟩
  | .error (e, tb) => ⟨false, [], ["Extraction failed: " ++ e, "Traceback: " ++ tb]⟩

/-! ## Shared helper lemmas -/

theorem strApp_left_cancel {a b c : String} (h : a ++ b = a ++ c) : b = c := by
  have hd : a.data ++ b.data = a.data ++ c.data := by
    have h1 : (a ++ b).data = (a ++ c).data := by rw [h]
    simpa [String.data_append] using h1
  exact String.ext (List.append_cancel_left hd)

theorem strApp_right_cancel {a b c : String} (h : a ++ c = b ++ c) : a = b := by
  have hd : a.data ++ c.data = b.data ++ c.data := by
    have h1 : (a ++ c).data = (b ++ c).data := by rw [h]
    simpa [String.data_append] using h1
  exact String.ext (List.append_cancel_right hd)

/-- A string whose lower-casing contains a nonempty substring is
nonempty. -/
theorem data_not_empty_of_pyContains {s t : String} (h : pyContains (pyLower s) t = true)
    (ht : t.data ≠ []) : s.data.isEmpty = false := by
  cases hs : s.data with
  | nil =>
    exfalso
    rw [pyContains, pyLower, hs] at h
    simp only [List.map_nil, containsSubL, List.isEmpty_eq_true] at h
    exact ht h
  | cons c cs => simp

/-! ## Claim C10: document-level failures resolve to a typed result -/

/-- C10: on any failure to open or read the page source, the run returns
an `ExtractionResult` with `success = false`, an empty item list and the
failure reason recorded among the errors — the exception is absorbed into
the returned value, never re-raised. -/
theorem C10_document_failure_typed_result (α : Type) (e tb : String) :
    (extract_from_pdf α (.error (e, tb))).success = false ∧
    (extract_from_pdf α (.error (e, tb))).items = [] ∧
    ("Extraction failed: " ++ e) ∈ (extract_from_pdf α (.error (e, tb))).errors := by
  refine ⟨rfl, rfl, ?_⟩
  simp [extract_from_pdf]

/-! ## Claim C7: pricing-table classification is a conjunction -/

/-- The claim's first condition, in its own words: the header row contains
at least one configured pricing keyword (case-insensitively). -/
def headerHasPricingKeyword (header_keywords : List String)
    (table : List (List (Option String))) : Prop :=
  match table with
  | [] => False
  | headers :: _ =>
    ∃ kw ∈ header_keywords,
      pyContains (pyLower (joinSpace (headers.map cellStr))) (pyLower kw) = true

/-- The claim's second condition, in its own words: one of the first few
(two) data rows has a cell matching a configured price pattern. -/
def priceInFirstDataRows (patterns : List (String → Bool))
    (table : List (List (Option String))) : Prop :=
  match table with
  | [] => False
  | _ :: rows =>
    ∃ row ∈ rows.take 2, ∃ cell ∈ row, contains_price_pattern patterns (cellStr cell) = true

/-- C7: for every table, `_is_pricing_table` returns true exactly when the
header row contains a configured pricing keyword AND one of the first few
data rows contains a cell matching a price pattern; one condition alone is
not enough.  (The configured keywords are nonempty words.) -/
theorem C7_pricing_table_iff (header_keywords : List String)
    (patterns : List (String → Bool)) (table : List (List (Option String)))
    (hkw : ∀ kw ∈ header_keywords, kw ≠ "") :
    is_pricing_table header_keywords patterns table = true ↔
      headerHasPricingKeyword header_keywords table ∧
      priceInFirstDataRows patterns table := by
  cases table with
  | nil => simp [is_pricing_table, headerHasPricingKeyword]
  | cons headers rows =>
    cases rows with
    | nil =>
      simp [is_pricing_table, priceInFirstDataRows]
    | cons r rs =>
      rw [is_pricing_table]
      have hlen : ¬((headers :: r :: rs).length < 2) := by simp
      rw [if_neg hlen]
      by_cases hh : headers.isEmpty
      · rw [if_pos hh]
        have hempty : headers = [] := List.isEmpty_iff.mp hh
        subst hempty
        constructor
        · intro h; exact absurd h (by simp)
        · rintro ⟨⟨kw, hmem, hcon⟩, -⟩
          have hne : kw ≠ "" := hkw kw hmem
          have h0 : pyContains (pyLower (joinSpace (List.map cellStr [])))
              (pyLower kw) = (pyLower kw).data.isEmpty := rfl
          rw [h0] at hcon
          have h1 : (pyLower kw).data = [] := List.isEmpty_iff.mp hcon
          have h2 : kw.data = [] := by
            have := h1
            rw [pyLower] at this
            exact List.map_eq_nil_iff.mp this
          exact absurd (String.ext h2) hne
      · rw [if_neg hh]
        simp only [Bool.and_eq_true, List.any_eq_true]
        constructor
        · rintro ⟨⟨kw, hkwmem, hc⟩, ⟨row, hrow, cell, hcell, hp⟩⟩
          exact ⟨⟨kw, hkwmem, hc⟩, ⟨row, hrow, cell, hcell, hp⟩⟩
        · rintro ⟨⟨kw, hkwmem, hc⟩, ⟨row, hrow, cell, hcell, hp⟩⟩
          exact ⟨⟨kw, hkwmem, hc⟩, ⟨row, hrow, cell, hcell, hp⟩⟩

/-- Concrete arguments exercising `C7_pricing_table_iff`: the end-to-end
sample table of the specification. -/
def c7KeywordsW : List String := ["ydelse", "monthly"]

def c7PatternsW : List (String → Bool) := [fun s => pyContains s "2.699"]

def c7TableW : List (List (Option String)) :=
  [[some "Variant", some "Monthly"], [some "Active", some "2.699"]]

theorem C7_pricing_table_iff_witness :
    headerHasPricingKeyword c7KeywordsW c7TableW ∧
    priceInFirstDataRows c7PatternsW c7TableW :=
  (C7_pricing_table_iff c7KeywordsW c7PatternsW c7TableW (by decide)).mp (by decide)

/-! ## Claim C9: locale field parsers are total and range-checked -/

theorem firstPriceInRange_in_range (pc : PricePattern) (ms : List (List String)) (p : Int)
    (h : firstPriceInRange pc ms = some p) :
    priceMin pc ≤ p ∧ p ≤ priceMax pc := by
  induction ms with
  | nil => simp [firstPriceInRange] at h
  | cons g gs ih =>
    rw [firstPriceInRange] at h
    split at h
    · split at h
      · cases h; assumption
      · exact ih h
    · exact ih h

theorem parse_danish_price_in_range (cfg : List PricePattern) (text : String) (p : Int)
    (h : parse_danish_price cfg text = some p) :
    ∃ pc ∈ cfg, priceMin pc ≤ p ∧ p ≤ priceMax pc := by
  induction cfg with
  | nil => simp [parse_danish_price] at h
  | cons pc rest ih =>
    rw [parse_danish_price] at h
    split at h
    · cases h
      exact ⟨pc, List.mem_cons_self _ _, firstPriceInRange_in_range pc _ _ (by assumption)⟩
    · obtain ⟨pc2, hmem, hr⟩ := ih h
      exact ⟨pc2, List.mem_cons_of_mem _ hmem, hr⟩

theorem powerScan_none_of_no_digit (l : List Char) (h : ∀ c ∈ l, c.isDigit = false) :
    powerScan l = none := by
  induction l with
  | nil => rfl
  | cons c cs ih =>
    rw [powerScan]
    rw [h c (List.mem_cons_self _ _)]
    simp only [Bool.false_eq_true, if_false]
    exact ih (fun x hx => h x (List.mem_cons_of_mem _ hx))

theorem batteryScan_none_of_no_digit (l : List Char) (h : ∀ c ∈ l, c.isDigit = false) :
    batteryScan l = none := by
  induction l with
  | nil => rfl
  | cons c cs ih =>
    rw [batteryScan]
    rw [h c (List.mem_cons_self _ _)]
    simp only [Bool.false_eq_true, if_false]
    exact ih (fun x hx => h x (List.mem_cons_of_mem _ hx))

/-- C9: the locale field parsers are total functions into optional values:
a returned price always lies in the configured plausible range of the
pattern that produced it, and the power and battery parsers return the
absent value on the empty string and on any text without a digit — no
input raises. -/
theorem C9_parsers_total_and_ranged :
    (∀ (cfg : List PricePattern) (text : String) (p : Int),
        parse_danish_price cfg text = some p →
        ∃ pc ∈ cfg, priceMin pc ≤ p ∧ p ≤ priceMax pc) ∧
    extract_power_from_specification "" = none ∧
    extract_battery_capacity "" = none ∧
    (∀ s : String, (∀ c ∈ s.data, c.isDigit = false) →
        extract_power_from_specification s = none ∧
        extract_battery_capacity s = none) := by
  refine ⟨parse_danish_price_in_range, rfl, rfl, fun s hs => ⟨?_, ?_⟩⟩
  · rw [extract_power_from_specification]
    split
    · rfl
    · exact powerScan_none_of_no_digit s.data hs
  · rw [extract_battery_capacity]
    split
    · rfl
    · exact batteryScan_none_of_no_digit s.data hs

/-- One configured price pattern with the documented Danish-thousands
shape, used to exercise `C9_parsers_total_and_ranged`. -/
def c9PatternW : PricePattern :=
  ⟨fun _ => [["2", "699"]], some "danish_thousands", some 2000, some 9999⟩

theorem C9_parsers_total_and_ranged_witness :
    (∃ pc ∈ [c9PatternW], priceMin pc ≤ (2699 : Int) ∧ (2699 : Int) ≤ priceMax pc) ∧
    extract_power_from_specification "ingen motor her" = none ∧
    extract_battery_capacity "ingen motor her" = none :=
  ⟨C9_parsers_total_and_ranged.1 [c9PatternW] "2.699 kr/md" 2699 rfl,
   (C9_parsers_total_and_ranged.2.2.2 "ingen motor her" (by decide)).1,
   (C9_parsers_total_and_ranged.2.2.2 "ingen motor her" (by decide)).2⟩

/-! ## Claims C4 and C5: the two-pass deduplication engine -/

theorem pass1Aux_sublist (seen : List (List String)) (l : List DedupItem) :
    (pass1Aux seen l).Sublist l := by
  induction l generalizing seen with
  | nil => simp [pass1Aux]
  | cons i rest ih =>
    rw [pass1Aux]
    split
    · exact (ih seen).cons i
    · exact (ih _).cons₂ i

theorem pass2Aux_sublist (seen : List String) (l : List DedupItem) :
    (pass2Aux seen l).Sublist l := by
  induction l generalizing seen with
  | nil => simp [pass2Aux]
  | cons i rest ih =>
    rw [pass2Aux]
    split
    · exact (ih _).cons₂ i
    · split
      · exact (ih seen).cons i
      · exact (ih seen).cons₂ i

theorem pass1Aux_keys (seen : List (List String)) (l : List DedupItem) :
    ((pass1Aux seen l).map dedupKey).Nodup ∧
    ∀ i ∈ pass1Aux seen l, dedupKey i ∉ seen := by
  induction l generalizing seen with
  | nil => exact ⟨List.nodup_nil, by simp [pass1Aux]⟩
  | cons i rest ih =>
    rw [pass1Aux]
    by_cases hc : dedupKey i ∈ seen
    · rw [if_pos (by simpa using hc)]
      exact ih seen
    · rw [if_neg (by simpa using hc)]
      obtain ⟨hnd, hdis⟩ := ih (dedupKey i :: seen)
      refine ⟨?_, ?_⟩
      · simp only [List.map_cons, List.nodup_cons]
        refine ⟨?_, hnd⟩
        intro hmem
        obtain ⟨j, hj, hkeq⟩ := List.mem_map.mp hmem
        exact (hdis j hj) (hkeq ▸ List.mem_cons_self _ _)
      · intro j hj
        rcases List.mem_cons.mp hj with rfl | hj2
        · exact hc
        · exact fun hmem => (hdis j hj2) (List.mem_cons_of_mem _ hmem)

theorem pass1Aux_eq_self (seen : List (List String)) (l : List DedupItem)
    (hnd : (l.map dedupKey).Nodup)
    (hdis : ∀ i ∈ l, dedupKey i ∉ seen) : pass1Aux seen l = l := by
  induction l generalizing seen with
  | nil => rfl
  | cons i rest ih =>
    have hkey : dedupKey i ∉ seen := hdis i (List.mem_cons_self _ _)
    rw [pass1Aux, if_neg (by simpa using hkey)]
    congr 1
    simp only [List.map_cons, List.nodup_cons] at hnd
    apply ih
    · exact hnd.2
    · intro j hj
      have h1 : dedupKey j ∉ seen := hdis j (List.mem_cons_of_mem _ hj)
      have h2 : dedupKey j ≠ dedupKey i := by
        intro he
        exact hnd.1 (he ▸ List.mem_map_of_mem dedupKey hj)
      intro hmem
      rcases List.mem_cons.mp hmem with he | hm
      · exact h2 he
      · exact h1 hm

/-- Two items collide in pass two only when both carry the same nonempty
id. -/
def IdDistinct (a b : DedupItem) : Prop := itemId a ≠ "" → itemId a ≠ itemId b

theorem pass2Aux_pairwise (seen : List String) (l : List DedupItem) :
    (pass2Aux seen l).Pairwise IdDistinct ∧
    ∀ i ∈ pass2Aux seen l, itemId i ≠ "" → itemId i ∉ seen := by
  induction l generalizing seen with
  | nil => exact ⟨List.Pairwise.nil, by simp [pass2Aux]⟩
  | cons i rest ih =>
    rw [pass2Aux]
    by_cases hie : itemId i = ""
    · have hc1 : (!(itemId i).isEmpty && !seen.contains (itemId i)) = false := by
        rw [hie]
        rfl
      rw [hc1]
      simp only [Bool.false_eq_true, if_false]
      by_cases hc2 : itemId i ∈ seen
      · rw [if_pos (by simpa using hc2)]
        exact ih seen
      · rw [if_neg (by simpa using hc2)]
        obtain ⟨hp, hdis⟩ := ih seen
        refine ⟨List.pairwise_cons.mpr ⟨?_, hp⟩, ?_⟩
        · intro j hj hne
          exact absurd hie hne
        · intro j hj hne
          rcases List.mem_cons.mp hj with rfl | hj2
          · exact absurd hie hne
          · exact hdis j hj2 hne
    · by_cases hc2 : itemId i ∈ seen
      · have hc1 : (!(itemId i).isEmpty && !seen.contains (itemId i)) = false := by
          simp [hc2]
        rw [hc1]
        simp only [Bool.false_eq_true, if_false]
        rw [if_pos (by simpa using hc2)]
        exact ih seen
      · have hc1 : (!(itemId i).isEmpty && !seen.contains (itemId i)) = true := by
          have : (itemId i).isEmpty = false := by
            rcases he : (itemId i).isEmpty with _ | _
            · rfl
            · exact absurd ((String.isEmpty_iff _).mp he) hie
          simp [this, hc2]
        rw [if_pos hc1]
        obtain ⟨hp, hdis⟩ := ih (itemId i :: seen)
        refine ⟨List.pairwise_cons.mpr ⟨?_, hp⟩, ?_⟩
        · intro j hj hne heq
          exact (hdis j hj (heq ▸ hne)) (heq ▸ List.mem_cons_self _ _)
        · intro j hj hne
          rcases List.mem_cons.mp hj with rfl | hj2
          · exact hc2
          · exact fun hmem => (hdis j hj2 hne) (List.mem_cons_of_mem _ hmem)

theorem pass2Aux_eq_self (seen : List String) (l : List DedupItem)
    (hp : l.Pairwise IdDistinct)
    (hdis : ∀ i ∈ l, itemId i ∉ seen) : pass2Aux seen l = l := by
  induction l generalizing seen with
  | nil => rfl
  | cons i rest ih =>
    obtain ⟨hhead, htail⟩ := List.pairwise_cons.mp hp
    have hseen : itemId i ∉ seen := hdis i (List.mem_cons_self _ _)
    rw [pass2Aux]
    by_cases hie : itemId i = ""
    · have hc1 : (!(itemId i).isEmpty && !seen.contains (itemId i)) = false := by
        rw [hie]
        rfl
      rw [hc1]
      simp only [Bool.false_eq_true, if_false]
      rw [if_neg (by simpa using hseen)]
      congr 1
      exact ih seen htail (fun j hj => hdis j (List.mem_cons_of_mem _ hj))
    · have hc1 : (!(itemId i).isEmpty && !seen.contains (itemId i)) = true := by
        have h0 : (itemId i).isEmpty = false := by
          rcases he : (itemId i).isEmpty with _ | _
          · rfl
          · exact absurd ((String.isEmpty_iff _).mp he) hie
        simp [h0, hseen]
      rw [if_pos hc1]
      congr 1
      apply ih _ htail
      intro j hj hmem
      rcases List.mem_cons.mp hmem with he | hm
      · exact (hhead j hj hie) he.symm
      · exact hdis j (List.mem_cons_of_mem _ hj) hm

/-- The pass-one key test, as a named predicate. -/
def keyIs (k : List String) (i : DedupItem) : Bool := dedupKey i == k

/-- The pass-two id test, as a named predicate. -/
def idIs (u : String) (i : DedupItem) : Bool := itemId i == u

theorem pass1Aux_filter (seen : List (List String)) (l : List DedupItem) (k : List String) :
    (pass1Aux seen l).filter (keyIs k) =
      if k ∈ seen then [] else (l.filter (keyIs k)).take 1 := by
  induction l generalizing seen with
  | nil =>
    rw [pass1Aux]
    split <;> simp
  | cons i rest ih =>
    rw [pass1Aux]
    by_cases hki : dedupKey i ∈ seen
    · rw [if_pos (by simpa using hki), ih seen]
      by_cases hks : k ∈ seen
      · rw [if_pos hks, if_pos hks]
      · rw [if_neg hks, if_neg hks]
        have hne : ¬keyIs k i = true := by
          simp only [keyIs, beq_iff_eq]
          exact fun he => hks (he ▸ hki)
        rw [List.filter_cons_of_neg hne]
    · rw [if_neg (by simpa using hki)]
      by_cases hk : dedupKey i = k
      · subst hk
        have hpos : keyIs (dedupKey i) i = true := by simp [keyIs]
        rw [List.filter_cons_of_pos hpos, ih (dedupKey i :: seen)]
        rw [if_pos (List.mem_cons_self _ _), if_neg hki]
        rw [List.filter_cons_of_pos hpos]
        rfl
      · have hne : ¬keyIs k i = true := by
          simp only [keyIs, beq_iff_eq]
          exact hk
        rw [List.filter_cons_of_neg hne, ih (dedupKey i :: seen)]
        have hmem : (k ∈ dedupKey i :: seen) ↔ (k ∈ seen) := by
          constructor
          · intro h
            rcases List.mem_cons.mp h with he | hm
            · exact absurd he.symm hk
            · exact hm
          · exact List.mem_cons_of_mem _
        by_cases hks : k ∈ seen
        · rw [if_pos (hmem.mpr hks), if_pos hks]
        · rw [if_neg (fun h => hks (hmem.mp h)), if_neg hks]
          rw [List.filter_cons_of_neg hne]

theorem pass2Aux_filter_of_ne (seen : List String) (l : List DedupItem) (uid : String)
    (huid : uid ≠ "") :
    (pass2Aux seen l).filter (idIs uid) =
      if uid ∈ seen then [] else (l.filter (idIs uid)).take 1 := by
  induction l generalizing seen with
  | nil =>
    rw [pass2Aux]
    split <;> simp
  | cons i rest ih =>
    rw [pass2Aux]
    by_cases hie : itemId i = ""
    · have hc1 : (!(itemId i).isEmpty && !seen.contains (itemId i)) = false := by
        rw [hie]
        rfl
      rw [hc1]
      simp only [Bool.false_eq_true, if_false]
      have hne : ¬idIs uid i = true := by
        simp only [idIs, beq_iff_eq]
        exact fun he => huid (he.symm.trans hie)
      by_cases hc2 : itemId i ∈ seen
      · rw [if_pos (by simpa using hc2), ih seen]
        by_cases hus : uid ∈ seen
        · rw [if_pos hus, if_pos hus]
        · rw [if_neg hus, if_neg hus, List.filter_cons_of_neg hne]
      · rw [if_neg (by simpa using hc2), List.filter_cons_of_neg hne, ih seen]
        by_cases hus : uid ∈ seen
        · rw [if_pos hus, if_pos hus]
        · rw [if_neg hus, if_neg hus, List.filter_cons_of_neg hne]
    · by_cases hc2 : itemId i ∈ seen
      · have hc1 : (!(itemId i).isEmpty && !seen.contains (itemId i)) = false := by
          have h2 : seen.contains (itemId i) = true := by simpa using hc2
          rw [h2]
          simp
        rw [hc1]
        simp only [Bool.false_eq_true, if_false]
        rw [if_pos (by simpa using hc2), ih seen]
        by_cases hvs : itemId i = uid
        · rw [if_pos (hvs ▸ hc2), if_pos (hvs ▸ hc2)]
        · have hne : ¬idIs uid i = true := by
            simp only [idIs, beq_iff_eq]
            exact hvs
          by_cases hus : uid ∈ seen
          · rw [if_pos hus, if_pos hus]
          · rw [if_neg hus, if_neg hus, List.filter_cons_of_neg hne]
      · have hc1 : (!(itemId i).isEmpty && !seen.contains (itemId i)) = true := by
          have h0 : (itemId i).isEmpty = false := by
            rcases he : (itemId i).isEmpty with _ | _
            · rfl
            · exact absurd ((String.isEmpty_iff _).mp he) hie
          simp [h0, hc2]
        rw [if_pos hc1]
        by_cases hvs : itemId i = uid
        · have hpos : idIs uid i = true := by simp [idIs, hvs]
          rw [List.filter_cons_of_pos hpos, ih (itemId i :: seen)]
          rw [if_pos (hvs ▸ List.mem_cons_self _ _)]
          rw [if_neg (hvs ▸ hc2)]
          rw [List.filter_cons_of_pos hpos]
          rfl
        · have hne : ¬idIs uid i = true := by
            simp only [idIs, beq_iff_eq]
            exact hvs
          rw [List.filter_cons_of_neg hne, ih (itemId i :: seen)]
          have hmem : (uid ∈ itemId i :: seen) ↔ (uid ∈ seen) := by
            constructor
            · intro h
              rcases List.mem_cons.mp h with he | hm
              · exact absurd he.symm hvs
              · exact hm
            · exact List.mem_cons_of_mem _
          by_cases hus : uid ∈ seen
          · rw [if_pos (hmem.mpr hus), if_pos hus]
          · rw [if_neg (fun h => hus (hmem.mp h)), if_neg hus]
            rw [List.filter_cons_of_neg hne]

theorem pass2Aux_filter_empty (seen : List String) (l : List DedupItem)
    (hs : "" ∉ seen) :
    (pass2Aux seen l).filter (idIs "") = l.filter (idIs "") := by
  induction l generalizing seen with
  | nil => rw [pass2Aux]
  | cons i rest ih =>
    rw [pass2Aux]
    by_cases hie : itemId i = ""
    · have hc1 : (!(itemId i).isEmpty && !seen.contains (itemId i)) = false := by
        rw [hie]
        rfl
      rw [hc1]
      simp only [Bool.false_eq_true, if_false]
      rw [if_neg (by simpa using (hie ▸ hs : itemId i ∉ seen))]
      have hpos : idIs "" i = true := by simp [idIs, hie]
      rw [List.filter_cons_of_pos hpos, List.filter_cons_of_pos hpos]
      rw [ih seen hs]
    · have hne : ¬idIs "" i = true := by
        simp only [idIs, beq_iff_eq]
        exact hie
      by_cases hc2 : itemId i ∈ seen
      · have hc1 : (!(itemId i).isEmpty && !seen.contains (itemId i)) = false := by
          have h2 : seen.contains (itemId i) = true := by simpa using hc2
          rw [h2]
          simp
        rw [hc1]
        simp only [Bool.false_eq_true, if_false]
        rw [if_pos (by simpa using hc2), List.filter_cons_of_neg hne]
        exact ih seen hs
      · have hc1 : (!(itemId i).isEmpty && !seen.contains (itemId i)) = true := by
          have h0 : (itemId i).isEmpty = false := by
            rcases he : (itemId i).isEmpty with _ | _
            · rfl
            · exact absurd ((String.isEmpty_iff _).mp he) hie
          simp [h0, hc2]
        rw [if_pos hc1]
        rw [List.filter_cons_of_neg hne, List.filter_cons_of_neg hne]
        apply ih
        intro hmem
        rcases List.mem_cons.mp hmem with he | hm
        · exact hie he.symm
        · exact hs hm


/-- C4 (amended): the deduplication engine runs pass one (exact-tuple
collapse keeping the first occurrence) and then pass two; the output is a
sublist of the input (so every output record is an input record, in input
order); pass two collapses the survivors that carry a nonempty id, first
seen wins; and survivors without an id are all kept, never collapsed. -/
theorem C4_two_pass_dedup (l : List DedupItem) :
    remove_duplicates l = pass2Aux [] (pass1Aux [] l) ∧
    (remove_duplicates l).Sublist l ∧
    (∀ k, (pass1Aux [] l).filter (keyIs k) = (l.filter (keyIs k)).take 1) ∧
    (∀ uid, uid ≠ "" →
      (remove_duplicates l).filter (idIs uid) =
        ((pass1Aux [] l).filter (idIs uid)).take 1) ∧
    (remove_duplicates l).filter (idIs "") = (pass1Aux [] l).filter (idIs "") := by
  refine ⟨rfl, (pass2Aux_sublist _ _).trans (pass1Aux_sublist _ _), ?_, ?_, ?_⟩
  · intro k
    have h := pass1Aux_filter [] l k
    simpa using h
  · intro uid huid
    have h := pass2Aux_filter_of_ne [] (pass1Aux [] l) uid huid
    simpa [remove_duplicates] using h
  · exact pass2Aux_filter_empty [] (pass1Aux [] l) (by simp)

/-- Two distinct extracted records that never received an id. -/
def c4ItemA : DedupItem := ⟨some "AYGO X", some "Active", some "1.0 benzin 72 hk", some 2699, none⟩

def c4ItemB : DedupItem := ⟨some "AYGO X", some "Pulse", some "1.0 benzin 72 hk", some 2899, none⟩

/-- C4 counterexample: two distinct pass-one survivors with the same
final id (both have no id, so both read back as the empty id) are BOTH
kept — pass two does not collapse the survivors by final id alone, and
the first-seen record does not win on this id collision. -/
theorem C4_counterexample :
    remove_duplicates [c4ItemA, c4ItemB] = [c4ItemA, c4ItemB] ∧
    itemId c4ItemA = itemId c4ItemB ∧
    c4ItemA ≠ c4ItemB := by decide

theorem C4_two_pass_dedup_witness :
    (remove_duplicates [c4ItemA, c4ItemB]).Sublist [c4ItemA, c4ItemB] ∧
    (remove_duplicates [c4ItemA, c4ItemB]).filter (idIs "x") =
      ((pass1Aux [] [c4ItemA, c4ItemB]).filter (idIs "x")).take 1 :=
  ⟨(C4_two_pass_dedup [c4ItemA, c4ItemB]).2.1,
   (C4_two_pass_dedup [c4ItemA, c4ItemB]).2.2.2.1 "x" (by decide)⟩

/-- C5: the deduplication engine is idempotent — running
`_remove_duplicates` on its own output returns that output unchanged. -/
theorem C5_dedup_idempotent (l : List DedupItem) :
    remove_duplicates (remove_duplicates l) = remove_duplicates l := by
  unfold remove_duplicates
  have h1 : pass1Aux [] (pass2Aux [] (pass1Aux [] l)) = pass2Aux [] (pass1Aux [] l) := by
    apply pass1Aux_eq_self
    · exact ((pass1Aux_keys [] l).1).sublist ((pass2Aux_sublist [] _).map dedupKey)
    · intro i _
      simp
  rw [h1]
  apply pass2Aux_eq_self
  · exact (pass2Aux_pairwise [] _).1
  · intro i _
    simp

/-! ## Claim C8: column location and the price fallback -/

/-- A header cell wins a column when it is truthy and contains one of the
configured keywords, case-insensitively — the test of the
`_find_column_index` loop body. -/
def headerMatches (keywords : List String) : Option String → Bool
  | none => false
  | some s => !s.data.isEmpty && keywords.any (fun kw => pyContains (pyLower s) (pyLower kw))

theorem findColAux_eq (keywords : List String) (cells : List (Option String)) (i0 : Nat) :
    findColAux keywords cells i0 =
      (cells.findIdx? (headerMatches keywords)).map (fun j => i0 + j) := by
  induction cells generalizing i0 with
  | nil => rfl
  | cons c t ih =>
    rw [List.findIdx?_cons]
    rcases hc : headerMatches keywords c with _ | _
    · have hrec : findColAux keywords (c :: t) i0 = findColAux keywords t (i0 + 1) := by
        cases c with
        | none => rfl
        | some s =>
          rw [headerMatches] at hc
          rw [findColAux]
          rcases he : s.data.isEmpty with _ | _
          · rw [if_neg (by simp [he])]
            rw [if_neg (by
              intro hany
              rw [he] at hc
              simp only [Bool.not_false, Bool.true_and] at hc
              exact absurd hany (by simp [hc]))]
          · rw [if_pos (by simp [he])]
      rw [hrec, ih (i0 + 1)]
      simp only [Bool.false_eq_true, if_false, List.findIdx?_succ, Option.map_map]
      congr 1
      funext j
      simp only [Function.comp_apply]
      omega
    · have hrec : findColAux keywords (c :: t) i0 = some i0 := by
        cases c with
        | none => exact absurd hc (by simp [headerMatches])
        | some s =>
          rw [headerMatches] at hc
          simp only [Bool.and_eq_true, Bool.not_eq_true'] at hc
          rw [findColAux]
          rw [if_neg (by simp [hc.1])]
          rw [if_pos hc.2]
      rw [hrec]
      simp

/-- C8 (amended): the first header cell containing a matching keyword
wins the column (`_find_column_index` computes the first matching index,
`-1` when none matches); when the designated column's cell parses to a
truthy price, that price is returned; but when the designated cell does
NOT parse, the extractor falls back to scanning every cell of the row even
though a header match had located the column; and with no header match
(index `-1`) it returns no price without scanning at all. -/
theorem C8_column_first_match_and_fallback (headers : List (Option String))
    (keywords : List String) (cfg : List PricePattern) (row : List (Option String))
    (i : Nat) (s : String) (p : Int) :
    (find_column_index headers keywords =
      (match headers.findIdx? (headerMatches keywords) with
       | some j => Int.ofNat j
       | none => -1)) ∧
    (row.get? i = some (some s) → s.data ≠ [] → parse_danish_price cfg s = some p →
      p ≠ 0 → extract_danish_price cfg row (Int.ofNat i) = some p) ∧
    (row.get? i = some (some s) → parse_danish_price cfg s = none →
      extract_danish_price cfg row (Int.ofNat i) = scanPriceRow cfg row) ∧
    extract_danish_price cfg row (-1) = none := by
  refine ⟨?_, ?_, ?_, ?_⟩
  · rw [find_column_index, findColAux_eq]
    cases headers.findIdx? (headerMatches keywords) with
    | none => rfl
    | some j => simp
  · intro hget hne hparse hp0
    have hlen : i < row.length := by
      by_contra hn
      rw [List.get?_eq_none.mpr (Nat.le_of_not_lt hn)] at hget
      cases hget
    rw [extract_danish_price, if_neg (by simp)]
    have hlt : (Int.ofNat i) < (row.length : Int) := by
      show (i : Int) < (row.length : Int)
      exact_mod_cast hlen
    have ht : (Int.ofNat i).toNat = i := rfl
    rw [if_pos hlt, ht, hget]
    dsimp only
    rw [if_pos (show (!s.data.isEmpty) = true by simp [hne]), hparse]
    dsimp only
    rw [if_pos hp0]
  · intro hget hparse
    rw [extract_danish_price, if_neg (by simp)]
    have ht : (Int.ofNat i).toNat = i := rfl
    by_cases hlt : (Int.ofNat i) < (row.length : Int)
    · rw [if_pos hlt, ht, hget]
      dsimp only
      by_cases hne : s.data.isEmpty
      · rw [if_neg (show ¬(!s.data.isEmpty) = true by simp [hne])]
      · rw [if_pos (show (!s.data.isEmpty) = true by simp [hne]), hparse]
    · rw [if_neg hlt]
  · rw [extract_danish_price, if_pos (by norm_num)]

/-- A concrete Danish-thousands price pattern whose regex matches exactly
the cell text `2.699`, with the source's default range. -/
def c8PatternW : PricePattern :=
  ⟨fun t => if pyContains t "2.699" then [["2", "699"]] else [], some "danish_thousands",
   none, none⟩

def c8CfgW : List PricePattern := [c8PatternW]

/-- C8 counterexample: the header `Ydelse` wins column 0, the column-0
cell `abc` does not parse, and yet a price IS taken from the other cell
of the row (the fallback scan runs despite the header match); conversely
with no header match (`-1`) the extractor returns nothing even though the
row contains a parseable price (no fallback scan happens).  Both
behaviours contradict the claim. -/
theorem C8_counterexample :
    find_column_index [some "Ydelse"] ["ydelse", "monthly", "md", "månedlig"] = 0 ∧
    parse_danish_price c8CfgW "abc" = none ∧
    extract_danish_price c8CfgW [some "abc", some "2.699"] 0 = some 2699 ∧
    parse_danish_price c8CfgW "2.699" = some 2699 ∧
    extract_danish_price c8CfgW [some "2.699"] (-1) = none := by
  refine ⟨by decide, by decide, by decide, by decide, by decide⟩

theorem C8_column_first_match_and_fallback_witness :
    extract_danish_price c8CfgW [some "2.699", some "junk"] (Int.ofNat 0) = some 2699 ∧
    extract_danish_price c8CfgW [some "abc", some "2.699"] (Int.ofNat 0) =
      scanPriceRow c8CfgW [some "abc", some "2.699"] :=
  ⟨(C8_column_first_match_and_fallback [] [] c8CfgW [some "2.699", some "junk"] 0
      "2.699" 2699).2.1 (by decide) (by decide) (by decide) (by decide),
   (C8_column_first_match_and_fallback [] [] c8CfgW [some "abc", some "2.699"] 0
      "abc" 0).2.2.1 (by decide) (by decide)⟩

/-! ## Claims C1, C2, C3, C6: the unique-id generation system -/

theorem generate_eq_of_not_early (model variant spec : String) (dt : Option String)
    (h : earlyCond (variantClean variant) = false) :
    generate_unique_variant_id model variant spec dt =
      modelClean model ++ "_" ++ variantClean variant
        ++ powerSuffix (extract_power_from_specification spec)
        ++ normalTail spec dt := by
  rw [generate_unique_variant_id, if_neg (by simp [h])]

theorem normalTail_electric (spec : String) (dt : Option String)
    (hcat : categorize_powertrain spec = "electric") :
    normalTail spec dt = electricTail spec dt := by
  rw [normalTail, hcat]
  rw [if_pos rfl]

theorem normalTail_manual (spec : String) (dt : Option String)
    (hben : pyContains (pyLower spec) "benzin" = true)
    (haut : pyContains (pyLower spec) "automatgear" = false)
    (hkwh : pyContains (pyLower spec) "kwh" = false)
    (helb : pyContains (pyLower spec) "elbil" = false)
    (hhyb : pyContains (pyLower spec) "hybrid" = false) :
    normalTail spec dt = "_manual" := by
  have hne : spec.data.isEmpty = false := data_not_empty_of_pyContains hben (by decide)
  have hcat : categorize_powertrain spec = "gasoline" := by
    rw [categorize_powertrain, if_neg (by simp [hne])]
    dsimp only
    rw [hkwh, helb, hhyb, hben]
    rfl
  have hdet : detect_gasoline_transmission spec = some "manual" := by
    rw [detect_gasoline_transmission, if_neg (by simp [hne])]
    dsimp only
    rw [haut, hben]
    rfl
  rw [normalTail, hcat]
  rw [if_neg (by decide), if_pos rfl]
  rw [gasolineTail, hdet]
  decide

/-- C1 (amended): for every model and every variant name whose cleaned
form does not trigger the enhanced-variant early return, the engine
specifications `1.0 benzin 72 hk` and `1.0 benzin 72 hk automatgear`
yield two different ids, the first ending in `_manual` and the second in
`_auto`; and in general, every engine specification containing `benzin`
but none of `automatgear`, `kwh`, `elbil`, `hybrid` (the categories that
take precedence) receives the `_manual` suffix, never an omitted one. -/
theorem C1_gasoline_manual_default (model variant : String) (dt : Option String)
    (h : earlyCond (variantClean variant) = false) :
    (∃ pre,
      generate_unique_variant_id model variant "1.0 benzin 72 hk" dt = pre ++ "_manual" ∧
      generate_unique_variant_id model variant "1.0 benzin 72 hk automatgear" dt =
        pre ++ "_auto") ∧
    generate_unique_variant_id model variant "1.0 benzin 72 hk" dt ≠
      generate_unique_variant_id model variant "1.0 benzin 72 hk automatgear" dt ∧
    (∀ spec : String,
      pyContains (pyLower spec) "benzin" = true →
      pyContains (pyLower spec) "automatgear" = false →
      pyContains (pyLower spec) "kwh" = false →
      pyContains (pyLower spec) "elbil" = false →
      pyContains (pyLower spec) "hybrid" = false →
      ∃ q, generate_unique_variant_id model variant spec dt = q ++ "_manual") := by
  have htail1 : normalTail "1.0 benzin 72 hk" dt = "_manual" :=
    normalTail_manual _ dt (by decide) (by decide) (by decide) (by decide) (by decide)
  have htail2 : normalTail "1.0 benzin 72 hk automatgear" dt = "_auto" := by
    rw [normalTail]
    rw [show categorize_powertrain "1.0 benzin 72 hk automatgear" = "gasoline" from by decide]
    rw [if_neg (by decide), if_pos rfl]
    decide
  have hid1 : generate_unique_variant_id model variant "1.0 benzin 72 hk" dt =
      modelClean model ++ "_" ++ variantClean variant ++ "_72hp" ++ "_manual" := by
    rw [generate_eq_of_not_early _ _ _ _ h, htail1]
    rw [show powerSuffix (extract_power_from_specification "1.0 benzin 72 hk") = "_72hp"
      from by decide]
  have hid2 : generate_unique_variant_id model variant "1.0 benzin 72 hk automatgear" dt =
      modelClean model ++ "_" ++ variantClean variant ++ "_72hp" ++ "_auto" := by
    rw [generate_eq_of_not_early _ _ _ _ h, htail2]
    rw [show powerSuffix
        (extract_power_from_specification "1.0 benzin 72 hk automatgear") = "_72hp"
      from by decide]
  refine ⟨⟨modelClean model ++ "_" ++ variantClean variant ++ "_72hp", hid1, hid2⟩, ?_, ?_⟩
  · intro heq
    rw [hid1, hid2] at heq
    have := strApp_left_cancel heq
    exact absurd this (by decide)
  · intro spec hben haut hkwh helb hhyb
    refine ⟨modelClean model ++ "_" ++ variantClean variant
      ++ powerSuffix (extract_power_from_specification spec), ?_⟩
    rw [generate_eq_of_not_early _ _ _ _ h,
      normalTail_manual spec dt hben haut hkwh helb hhyb]

/-- C1 counterexample: for the variant name `Active Auto` (whose cleaned
form ends in `_auto` and so triggers the enhanced-variant early return),
the manual and automatic gasoline engine specifications collapse to the
SAME id, which moreover ends in neither `_manual` nor `_auto`. -/
theorem C1_counterexample :
    generate_unique_variant_id "AYGO X" "Active Auto" "1.0 benzin 72 hk" none =
      generate_unique_variant_id "AYGO X" "Active Auto" "1.0 benzin 72 hk automatgear" none ∧
    generate_unique_variant_id "AYGO X" "Active Auto" "1.0 benzin 72 hk" none =
      "aygox_active_auto_72hp" := by
  refine ⟨by decide, by decide⟩

theorem C1_gasoline_manual_default_witness :
    generate_unique_variant_id "AYGO X" "Active" "1.0 benzin 72 hk" none ≠
      generate_unique_variant_id "AYGO X" "Active" "1.0 benzin 72 hk automatgear" none ∧
    (∃ q, generate_unique_variant_id "AYGO X" "Active" "1.5 benzin 100 hk" none =
      q ++ "_manual") :=
  ⟨(C1_gasoline_manual_default "AYGO X" "Active" none (by decide)).2.1,
   (C1_gasoline_manual_default "AYGO X" "Active" none (by decide)).2.2
     "1.5 benzin 100 hk" (by decide) (by decide) (by decide) (by decide) (by decide)⟩

/-- C2 (amended): on the normal path (variant name free of the
kWh/AWD/auto/manual/horsepower markers), two inputs sharing model,
variant name, power figure and all-wheel-drive flag but with different
battery-capacity suffixes always receive different ids; on the
enhanced-variant early-return path the battery suffix is never appended
and such inputs can collapse to the same id. -/
theorem C2_battery_disambiguation (model variant spec1 spec2 : String)
    (dt1 dt2 : Option String)
    (h : earlyCond (variantClean variant) = false)
    (hcat1 : categorize_powertrain spec1 = "electric")
    (hcat2 : categorize_powertrain spec2 = "electric")
    (hpow : extract_power_from_specification spec1 = extract_power_from_specification spec2)
    (hawd : awdCode spec1 dt1 = awdCode spec2 dt2)
    (hne : batterySuffix (extract_battery_capacity spec1) ≠
      batterySuffix (extract_battery_capacity spec2)) :
    generate_unique_variant_id model variant spec1 dt1 ≠
      generate_unique_variant_id model variant spec2 dt2 := by
  intro heq
  rw [generate_eq_of_not_early _ _ _ _ h, generate_eq_of_not_early _ _ _ _ h,
    normalTail_electric _ _ hcat1, normalTail_electric _ _ hcat2,
    electricTail, electricTail, ← hpow, ← hawd] at heq
  have h1 := strApp_left_cancel heq
  have h2 := strApp_right_cancel h1
  have h3 := strApp_right_cancel h2
  have h4 := strApp_right_cancel h3
  exact hne h4

/-- C2 counterexample: same model, same variant name (`Active AWD`, which
carries an AWD marker and so takes the enhanced-variant path), same 224
power figure, batteries 57.7 vs 73.1 kWh — and the SAME id for both. -/
theorem C2_counterexample :
    generate_unique_variant_id "BZ4X" "Active AWD" "57.7 kWh 224 hk" none =
      generate_unique_variant_id "BZ4X" "Active AWD" "73.1 kWh 224 hk" none ∧
    generate_unique_variant_id "BZ4X" "Active AWD" "57.7 kWh 224 hk" none =
      "bz4x_active_224hp" ∧
    extract_battery_capacity "57.7 kWh 224 hk" ≠
      extract_battery_capacity "73.1 kWh 224 hk" := by
  refine ⟨by decide, by decide, by decide⟩

theorem C2_battery_disambiguation_witness :
    generate_unique_variant_id "BZ4X" "Active" "57.7 kWh 224 hk" none ≠
      generate_unique_variant_id "BZ4X" "Active" "73.1 kWh 224 hk" none :=
  C2_battery_disambiguation "BZ4X" "Active" "57.7 kWh 224 hk" "73.1 kWh 224 hk" none none
    (by decide) (by decide) (by decide) (by decide) (by decide) (by decide)

/-- The id layout that claim C3 describes, built from its words: slug,
power suffix if present, battery-capacity suffix, then EXACTLY ONE of the
all-wheel-drive suffix (when AWD applies) or the `electric` suffix. -/
def specC3ElectricId (model variant spec : String) (dt : Option String) : String :=
  modelClean model ++ "_" ++ variantClean variant
    ++ powerSuffix (extract_power_from_specification spec)
    ++ batterySuffix (extract_battery_capacity spec)
    ++ (if awdCode spec dt then "_awd" else "_electric")

/-- C3 (amended): for an electric engine specification on the normal
path, the id is the slug, the power suffix when truthy, the
battery-capacity suffix when a truthy capacity was captured, the power
suffix A SECOND TIME, then `_awd` when all-wheel drive applies, and
`_electric` ALWAYS — so `_awd` and `_electric` can both appear, and the
power suffix appears twice. -/
theorem C3_electric_id_layout (model variant spec : String) (dt : Option String)
    (h : earlyCond (variantClean variant) = false)
    (hcat : categorize_powertrain spec = "electric") :
    generate_unique_variant_id model variant spec dt =
      modelClean model ++ "_" ++ variantClean variant
        ++ powerSuffix (extract_power_from_specification spec)
        ++ (batterySuffix (extract_battery_capacity spec)
            ++ powerSuffix (extract_power_from_specification spec)
            ++ (if awdCode spec dt then "_awd" else "")
            ++ "_electric") := by
  rw [generate_eq_of_not_early _ _ _ _ h, normalTail_electric _ _ hcat, electricTail]

/-- C3 counterexample: for `BZ4X Executive, 73.1 kWh, 343 hk AWD` the
generated id repeats the 343-hp suffix and carries `_awd` AND
`_electric`, unlike the id the claim describes. -/
theorem C3_counterexample :
    generate_unique_variant_id "BZ4X" "Executive" "73.1 kWh, 343 hk AWD" none =
      "bz4x_executive_343hp_73_1kwh_343hp_awd_electric" ∧
    specC3ElectricId "BZ4X" "Executive" "73.1 kWh, 343 hk AWD" none =
      "bz4x_executive_343hp_73_1kwh_awd" ∧
    generate_unique_variant_id "BZ4X" "Executive" "73.1 kWh, 343 hk AWD" none ≠
      specC3ElectricId "BZ4X" "Executive" "73.1 kWh, 343 hk AWD" none := by
  refine ⟨by decide, by decide, by decide⟩

theorem C3_electric_id_layout_witness :
    generate_unique_variant_id "BZ4X" "Executive" "73.1 kWh, 343 hk AWD" none =
      modelClean "BZ4X" ++ "_" ++ variantClean "Executive"
        ++ powerSuffix (extract_power_from_specification "73.1 kWh, 343 hk AWD")
        ++ (batterySuffix (extract_battery_capacity "73.1 kWh, 343 hk AWD")
            ++ powerSuffix (extract_power_from_specification "73.1 kWh, 343 hk AWD")
            ++ (if awdCode "73.1 kWh, 343 hk AWD" none then "_awd" else "")
            ++ "_electric") :=
  C3_electric_id_layout "BZ4X" "Executive" "73.1 kWh, 343 hk AWD" none
    (by decide) (by decide)

/-- The slug of claim C6, built from its words: lower-case, spaces to
underscores, hyphens removed — the same procedure for model and variant. -/
def slugSpec (s : String) : String :=
  pyReplace (pyReplace (pyLower s) " " "_") "-" ""

/-- C6 (amended): on the normal path (no enhanced-variant early return,
no `executive_panorama` collapse), the id begins with the model
lower-cased with spaces AND hyphens removed (not underscored), then `_`,
then the variant lower-cased with spaces replaced by underscores and
hyphens KEPT — the two parts are slugged differently. -/
theorem C6_slug_prefix (model variant spec : String) (dt : Option String)
    (h : earlyCond (variantClean variant) = false)
    (hex : pyContains (pyReplace (pyLower variant) " " "_") "executive_panorama" = false) :
    ∃ rest, generate_unique_variant_id model variant spec dt =
      pyReplace (pyReplace (pyLower model) " " "") "-" "" ++ "_"
        ++ pyReplace (pyLower variant) " " "_" ++ rest := by
  have hvc : variantClean variant = pyReplace (pyLower variant) " " "_" := by
    rw [variantClean]
    rw [if_neg (by simp [hex])]
  refine ⟨powerSuffix (extract_power_from_specification spec) ++ normalTail spec dt, ?_⟩
  rw [generate_eq_of_not_early _ _ _ _ h, hvc, modelClean]
  simp [String.append_assoc]

/-- C6 counterexample: for the model `AYGO X` the id starts with `aygox`
(spaces removed), not with the space-to-underscore slug `aygo_x` that the
claim prescribes for both parts. -/
theorem C6_counterexample :
    generate_unique_variant_id "AYGO X" "Active" "1.0 benzin 72 hk" none =
      "aygox_active_72hp_manual" ∧
    slugSpec "AYGO X" = "aygo_x" ∧
    pyStartsWith (generate_unique_variant_id "AYGO X" "Active" "1.0 benzin 72 hk" none)
      (slugSpec "AYGO X") = false := by
  refine ⟨by decide, by decide, by decide⟩

theorem C6_slug_prefix_witness :
    ∃ rest, generate_unique_variant_id "AYGO X" "GR-Sport" "1.0 benzin 72 hk" none =
      pyReplace (pyReplace (pyLower "AYGO X") " " "") "-" "" ++ "_"
        ++ pyReplace (pyLower "GR-Sport") " " "_" ++ rest :=
  C6_slug_prefix "AYGO X" "GR-Sport" "1.0 benzin 72 hk" none (by decide) (by decide)

end Leasingborsen
